import Mathlib

/-!
Verification of the battle-simulation core of the Pokemon-MCP-Server
repository (`battle_simulator.py`), as a shallow embedding in Lean 4.

Python machine-level conventions used throughout the embedding:
* Python floats are modelled by exact rational arithmetic over a pair
  `num / den` (`PyFloat` below, kept un-normalized so every operation is a
  plain integer computation); float literals such as `0.85` are read as the
  exact rationals they denote in the source text.
* Python `int(x)` on a float truncates toward zero.
* Python `x or d` on an optional integer treats `None` and `0` as falsy.
* The process-wide pseudo-random stream (`random.random`, `random.randint`,
  `random.uniform`) is modelled by an explicit stream `s : ℕ → PyFloat` of
  raw draws in `[0,1)` together with an index that advances exactly at the
  program points where the Python code consumes a draw.
-/

namespace PokemonMCP

/-- Exact fraction `num / den` modelling a Python float value. All
constructions in the embedding keep `den` positive. -/
structure PyFloat where
  num : ℤ
  den : ℤ
deriving DecidableEq

/-- Embedding of a Python int into a float position. -/
def PyFloat.ofInt (z : ℤ) : PyFloat := ⟨z, 1⟩

instance (n : ℕ) : OfNat PyFloat n := ⟨⟨(n : ℤ), 1⟩⟩

instance : Add PyFloat := ⟨fun a b => ⟨a.num * b.den + b.num * a.den, a.den * b.den⟩⟩

instance : Sub PyFloat := ⟨fun a b => ⟨a.num * b.den - b.num * a.den, a.den * b.den⟩⟩

instance : Mul PyFloat := ⟨fun a b => ⟨a.num * b.num, a.den * b.den⟩⟩

/-- Reciprocal, arranged to keep the denominator sign positive for the
divisions the simulator actually performs (all by positive values). -/
def PyFloat.inv (a : PyFloat) : PyFloat :=
  if 0 ≤ a.num then ⟨a.den, a.num⟩ else ⟨-a.den, -a.num⟩

instance : Div PyFloat := ⟨fun a b => a * b.inv⟩

instance : LE PyFloat := ⟨fun a b => a.num * b.den ≤ b.num * a.den⟩

instance : LT PyFloat := ⟨fun a b => a.num * b.den < b.num * a.den⟩

instance (a b : PyFloat) : Decidable (a ≤ b) :=
  inferInstanceAs (Decidable (a.num * b.den ≤ b.num * a.den))

instance (a b : PyFloat) : Decidable (a < b) :=
  inferInstanceAs (Decidable (a.num * b.den < b.num * a.den))

/-- Python `max(a, b)` on floats (first argument on ties). -/
def pyMax (a b : PyFloat) : PyFloat := if a < b then b else a

/-- Mathematical floor of a `PyFloat` (denominator positive). -/
def PyFloat.floor (a : PyFloat) : ℤ := a.num.fdiv a.den

/-- Python `int(x)` on a float: truncation toward zero. -/
def pyInt (a : PyFloat) : ℤ := a.num.tdiv a.den

/-- Rendering of a float into a log line (stand-in for Python float repr;
a deterministic function of the value's representation). -/
def pyStr (f : PyFloat) : String := toString f.num ++ "/" ++ toString f.den

/-- Python `x or d` for an optional integer: `None` and `0` are falsy. -/
def pyOr (x : Option ℤ) (d : ℤ) : ℤ :=
  match x with
  | none => d
  | some v => if v = 0 then d else v

/-- One entry of a move's `effect_entries` list (fields `effect`, `short_effect`). -/
structure EffectEntry where
  effect : String
  short_effect : String
deriving DecidableEq

/-- A loaded move record as normalized by `get_move_data` (only the fields the
simulator reads). -/
structure Move where
  name : String
  power : Option ℤ
  accuracy : Option ℤ
  type : String
  damage_class : Option String
  effect_entries : List EffectEntry
  effect_chance : Option ℤ
deriving DecidableEq

/-- A loaded creature record as normalized by `get_pokemon_data` (only the
fields the simulator reads): `stats` is the base-stat dict, `types` the
ordered type names, `moves` the learn-ordered move names. -/
structure Pokemon where
  name : String
  stats : String → Option ℤ
  types : List String
  moves : List String

/-- `compute_hp_from_base(base_hp, level)`:
`max(1, int(((2 * base_hp + 31) * level) / 100 + level + 10))`. -/
def compute_hp_from_base (base_hp level : ℤ) : ℤ :=
  max 1 (pyInt (PyFloat.ofInt ((2 * base_hp + 31) * level) / 100 + PyFloat.ofInt level + 10))

/-- `stat_at_level(base, level)`:
`max(1, int(((2 * base + 31) * level) / 100 + 5))`. -/
def stat_at_level (base level : ℤ) : ℤ :=
  max 1 (pyInt (PyFloat.ofInt ((2 * base + 31) * level) / 100 + 5))

/-- `random.uniform(a, b)` applied to a raw draw `r` from `[0,1)`. -/
def pyUniform (a b r : PyFloat) : PyFloat := a + (b - a) * r

/-- `random.randint(1, 100)` applied to a raw draw `r` from `[0,1)`:
a uniform integer in `[1, 100]`. -/
def randint100 (r : PyFloat) : ℤ := 1 + (r * 100).floor

/-- `calc_damage(level, power, attack, defense, modifier)` with the internal
`random.uniform(0.85, 1.0)` draw made explicit as the raw draw `r`. -/
def calc_damage (level power : ℤ) (attack defense modifier : PyFloat) (r : PyFloat) : ℤ :=
  let base : PyFloat :=
    ((PyFloat.ofInt (2 * level) / 5 + 2) * PyFloat.ofInt power * (attack / pyMax 1 defense)) / 50 + 2
  let rand : PyFloat := pyUniform (85 / 100) 1 r
  max 1 (pyInt (base * modifier * rand))

/-- Python substring test `needle in hay` on character lists. -/
def strContains (needle : List Char) : List Char → Bool
  | [] => needle.isEmpty
  | c :: t => needle.isPrefixOf (c :: t) || strContains needle t

/-- Python `needle in hay` on strings. -/
def pyIn (needle hay : String) : Bool := strContains needle.data hay.data

/-- Python `str.lower()` (character-wise, as `String.toLower`). -/
def pyLower (s : String) : String := ⟨s.data.map Char.toLower⟩

/-- `detect_status_from_move(move)`: concatenate all effect texts, lowercase,
and keyword-match in priority order paralysis, burn, poison. -/
def detect_status_from_move (move : Move) : Option String :=
  let texts := String.intercalate " "
    (move.effect_entries.map (fun e => e.effect ++ " " ++ e.short_effect))
  let t := pyLower texts
  if pyIn "paraly" t || pyIn "paralys" t then some "paralysis"
  else if pyIn "burn" t then some "burn"
  else if pyIn "poison" t then some "poison"
  else none

/-- `apply_status_chance(move, target_status)`: the `random.randint(1,100)`
draw is consumed (index advanced) exactly when a status is detected and the
effect chance is positive, mirroring Python's short-circuit
`chance > 0 and random.randint(1,100) <= chance`. -/
def apply_status_chance (move : Move) (target_status : Option String)
    (s : ℕ → PyFloat) (i : ℕ) : Option String × ℕ :=
  match detect_status_from_move move with
  | none => (target_status, i)
  | some st =>
    let chance := move.effect_chance.getD 0
    if 0 < chance then
      if randint100 (s i) ≤ chance then (some st, i + 1) else (target_status, i + 1)
    else (target_status, i)

/-- The accuracy check `hits(accuracy)` of `simulate_battle`: a missing
accuracy always hits and consumes no draw; otherwise one `randint(1,100)`
draw is compared against `max(1, accuracy)`. Returns the result and the
advanced stream index. -/
def hits (accuracy : Option ℤ) (s : ℕ → PyFloat) (i : ℕ) : Bool × ℕ :=
  match accuracy with
  | none => (true, i)
  | some a => (decide (randint100 (s i) ≤ max 1 a), i + 1)

/-- Functional-dictionary update, modelling `d[k] = v` on a Python dict. -/
def dUpd (m : String → Option PyFloat) (k : String) (v : PyFloat) : String → Option PyFloat :=
  fun k2 => if k2 = k then some v else m k2

/-- Per-type upstream damage-relation data (`damage_relations` of a type
record): the fetched type's own name and the three target-name lists. -/
structure TypeData where
  name : String
  double : List String
  half : List String
  zero : List String

/-- One attacking row of the chart as built by `build_type_chart`: starting
from the pre-existing row, set every listed type name to `1.0`, then
overwrite `double_damage_to` with `2.0`, `half_damage_to` with `0.5`,
`no_damage_to` with `0.0` (in that order). -/
def buildRow (typesList : List String) (d : TypeData)
    (prev : String → Option PyFloat) : String → Option PyFloat :=
  let r1 := typesList.foldl (fun m t => dUpd m t 1) prev
  let r2 := d.double.foldl (fun m t => dUpd m t 2) r1
  let r3 := d.half.foldl (fun m t => dUpd m t (1 / 2)) r2
  d.zero.foldl (fun m t => dUpd m t 0) r3

/-- One iteration of the `build_type_chart` loop: a type whose fetch fails
(`fetch t = none`) is skipped (`except: continue`); otherwise its row is
built (`setdefault` semantics: on top of any existing row) and stored under
the fetched record's own `name` field. -/
def chartStep (typesList : List String) (fetch : String → Option TypeData)
    (chart : String → Option (String → Option PyFloat)) (t : String) :
    String → Option (String → Option PyFloat) :=
  match fetch t with
  | none => chart
  | some d =>
    fun k =>
      if k = d.name then
        some (buildRow typesList d ((chart d.name).getD (fun _ => none)))
      else chart k

/-- `build_type_chart()`: fold the per-type step over the upstream type
listing, starting from the empty dict. -/
def build_type_chart (typesList : List String) (fetch : String → Option TypeData) :
    String → Option (String → Option PyFloat) :=
  typesList.foldl (chartStep typesList fetch) (fun _ => none)

/-- `type_multiplier(move_type, target_types)`: product over the target's
types of `chart.get(move_type, {}).get(t, 1.0)`. -/
def type_multiplier (chart : String → Option (String → Option PyFloat))
    (moveType : String) (targetTypes : List String) : PyFloat :=
  targetTypes.foldl (fun mult t => mult * (((chart moveType).getD (fun _ => none) t).getD 1)) 1

/-- The sort key of the fallback candidate sort: `x['power'] or 0`. -/
def movKey (m : Move) : ℤ := m.power.getD 0

/-- Stable descending insertion by power, modelling one insertion step of
Python's stable `list.sort(key=..., reverse=True)`. -/
def insertDesc (x : Move) : List Move → List Move
  | [] => [x]
  | y :: ys => if movKey y ≤ movKey x then x :: y :: ys else y :: insertDesc x ys

/-- Stable descending sort by power, modelling Python's stable
`candidates.sort(key=lambda x: (x['power'] or 0), reverse=True)`. -/
def sortDescPower : List Move → List Move
  | [] => []
  | x :: xs => insertDesc x (sortDescPower xs)

/-- Truthiness of `md['power']` (`None` and `0` are falsy, i.e. truthy
exactly when the defaulted value `p.getD 0` is nonzero). -/
def truthyPower (p : Option ℤ) : Bool := decide (p.getD 0 ≠ 0)

/-- `md['damage_class'] in ("physical","special")`. -/
def isDamagingClass (c : Option String) : Bool :=
  decide (c = some "physical") || decide (c = some "special")

/-- The fallback candidate list of `select_move`: probe the first 40 known
moves, skip loader failures, keep moves with truthy power and a damaging
class, in encounter order. -/
def fallbackCandidates (poke : Pokemon) (load : String → Option Move) : List Move :=
  ((poke.moves.take 40).filterMap load).filter
    (fun md => truthyPower md.power && isDamagingClass md.damage_class)

/-- The synthetic default move returned when no candidate qualifies. -/
def struggle (firstType : String) : Move :=
  { name := "struggle", power := some 50, accuracy := some 100, type := firstType,
    damage_class := some "physical", effect_entries := [], effect_chance := none }

/-- The explicit-list phase of `select_move`: try each provided name in
order, returning the first that loads. -/
def tryProvided (load : String → Option Move) : List String → Option Move
  | [] => none
  | n :: ns =>
    match load n with
    | some m => some m
    | none => tryProvided load ns

/-- `select_move(poke, provided)`. `none` models the only way the Python
function can raise: `poke['types'][0]` on a creature with no types while
building the struggle fallback. An empty or fully-failing provided list
falls through to the fallback scan, as in the source. -/
def select_move (poke : Pokemon) (provided : Option (List String))
    (load : String → Option Move) : Option Move :=
  let viaProvided : Option Move :=
    match provided with
    | some l => tryProvided load l
    | none => none
  match viaProvided with
  | some m => some m
  | none =>
    match sortDescPower (fallbackCandidates poke load) with
    | c :: _ => some c
    | [] =>
      match poke.types with
      | t :: _ => some (struggle t)
      | [] => none

/-- One side's battle-long static data, derived once at battle start. -/
structure Battler where
  name : String
  types : List String
  maxHp : ℤ
  attack : ℤ
  spAtk : ℤ
  speed : ℤ
  move : Move

/-- The mutable battle state: current HPs, statuses, log, turn counter and
the current position in the random stream. -/
structure BState where
  atkCurr : ℤ
  defCurr : ℤ
  atkStatus : Option String
  defStatus : Option String
  log : List String
  turn : ℕ
  i : ℕ

/-- The part of one actor's action after the paralysis gate: accuracy check,
damage computation (one crit draw, then one uniform draw inside
`calc_damage` when power is positive), then the status-application attempt.
Returns the target's new HP and status, the log lines appended by the
action, and the advanced stream index. -/
def doActionCore (chart : String → Option (String → Option PyFloat)) (L : ℤ)
    (user target : Battler) (userStatus targetStatus : Option String)
    (targetCurr : ℤ) (s : ℕ → PyFloat) (i : ℕ) : ℤ × Option String × List String × ℕ :=
  let h := hits user.move.accuracy s i
  if h.1 then
    let power := user.move.power.getD 0
    let dmgStep : ℤ × List String × ℕ :=
      if 0 < power then
        let physical := user.move.damage_class = some "physical"
        let attack_stat : ℤ := if physical then user.attack else user.spAtk
        let defense_stat : ℤ := if physical then target.attack else target.spAtk
        let stab : PyFloat := if user.move.type ∈ user.types then 3 / 2 else 1
        let mult : PyFloat := type_multiplier chart user.move.type target.types
        let crit : PyFloat := if s h.2 < 1 / 16 then 3 / 2 else 1
        let eff_attack : PyFloat :=
          PyFloat.ofInt attack_stat * (if userStatus = some "burn" ∧ physical then 1 / 2 else 1)
        let modifier : PyFloat := stab * mult * crit
        let dmg := calc_damage L power eff_attack (PyFloat.ofInt defense_stat) modifier (s (h.2 + 1))
        (max 0 (targetCurr - dmg),
         [user.name ++ " used " ++ user.move.name ++ " -> -" ++ toString dmg ++
          " (effectiveness x" ++ pyStr mult ++ ")"],
         h.2 + 2)
      else
        (targetCurr,
         [user.name ++ " used " ++ user.move.name ++ " (no direct damage in this sim)"],
         h.2)
    let sc := apply_status_chance user.move targetStatus s dmgStep.2.2
    match sc.1 with
    | some v =>
      if some v ≠ targetStatus then
        (dmgStep.1, some v,
         dmgStep.2.1 ++ [target.name ++ " is now " ++ v ++ "!"], sc.2)
      else (dmgStep.1, targetStatus, dmgStep.2.1, sc.2)
    | none => (dmgStep.1, targetStatus, dmgStep.2.1, sc.2)
  else
    (targetCurr, targetStatus,
     [user.name ++ " used " ++ user.move.name ++ " but it missed!"], h.2)

/-- One actor's full action, including the paralysis gate: a paralyzed user
consumes one `random.random()` draw and skips its action when the draw is
below `0.25`. -/
def doAction (chart : String → Option (String → Option PyFloat)) (L : ℤ)
    (user target : Battler) (userStatus targetStatus : Option String)
    (targetCurr : ℤ) (s : ℕ → PyFloat) (i : ℕ) : ℤ × Option String × List String × ℕ :=
  if userStatus = some "paralysis" then
    if s i < 1 / 4 then
      (targetCurr, targetStatus,
       [user.name ++ " is paralyzed and can't move!"], i + 1)
    else doActionCore chart L user target userStatus targetStatus targetCurr s (i + 1)
  else doActionCore chart L user target userStatus targetStatus targetCurr s i

/-- End-of-turn status tick `apply_eot(name, status, curr_hp, max_hp)`:
returns the new current HP and the log lines it appends. -/
def apply_eot (name : String) (status : Option String) (curr_hp max_hp : ℤ) :
    ℤ × List String :=
  if status = some "burn" then
    let dmg := max 1 (pyInt (PyFloat.ofInt max_hp / 16))
    (max 0 (curr_hp - dmg), [name ++ " is hurt by its burn for " ++ toString dmg ++ " HP."])
  else if status = some "poison" then
    let dmg := max 1 (pyInt (PyFloat.ofInt max_hp / 8))
    (max 0 (curr_hp - dmg), [name ++ " is hurt by poison for " ++ toString dmg ++ " HP."])
  else (curr_hp, [])

/-- One slot of the per-turn actor loop: the loop-head faint check (`break`
when either side is at 0), then the chosen side's action applied to the
state. -/
def actOnce (chart : String → Option (String → Option PyFloat)) (L : ℤ)
    (A D : Battler) (actorIsAtk : Bool) (st : BState) (s : ℕ → PyFloat) : BState :=
  if st.atkCurr ≤ 0 ∨ st.defCurr ≤ 0 then st
  else if actorIsAtk then
    let r := doAction chart L A D st.atkStatus st.defStatus st.defCurr s st.i
    { st with defCurr := r.1, defStatus := r.2.1, log := st.log ++ r.2.2.1, i := r.2.2.2 }
  else
    let r := doAction chart L D A st.defStatus st.atkStatus st.atkCurr s st.i
    { st with atkCurr := r.1, atkStatus := r.2.1, log := st.log ++ r.2.2.1, i := r.2.2.2 }

/-- One full turn of the while-loop body: increment the turn counter, log
the turn header, order the two actions by paralysis-adjusted effective
speed (attacker first on ties), run both actions (the second is skipped if
a side fainted), then apply end-of-turn ticks to the attacker side and the
defender side in that order. -/
def doTurn (chart : String → Option (String → Option PyFloat)) (L : ℤ)
    (A D : Battler) (st : BState) (s : ℕ → PyFloat) : BState :=
  let turn := st.turn + 1
  let atkEff : PyFloat := PyFloat.ofInt A.speed * (if st.atkStatus = some "paralysis" then 1 / 2 else 1)
  let defEff : PyFloat := PyFloat.ofInt D.speed * (if st.defStatus = some "paralysis" then 1 / 2 else 1)
  let firstAtk : Bool := decide (defEff ≤ atkEff)
  let st0 : BState := { st with turn := turn, log := st.log ++ ["-- Turn " ++ toString turn ++ " --"] }
  let st1 := actOnce chart L A D firstAtk st0 s
  let st2 := actOnce chart L A D (!firstAtk) st1 s
  let e1 := apply_eot A.name st2.atkStatus st2.atkCurr A.maxHp
  let e2 := apply_eot D.name st2.defStatus st2.defCurr D.maxHp
  { st2 with atkCurr := e1.1, defCurr := e2.1, log := st2.log ++ e1.2 ++ e2.2 }

/-- The while-loop `while turn < M and atk_curr > 0 and def_curr > 0`,
run with explicit fuel. The fuel is chosen by the caller as `M.toNat`,
which is exact: the turn counter increases by one per iteration, so the
guard `turn < M` fails no later than the fuel runs out. -/
def runLoop (chart : String → Option (String → Option PyFloat)) (L : ℤ)
    (A D : Battler) (M : ℤ) (s : ℕ → PyFloat) : ℕ → BState → BState
  | 0, st => st
  | fuel + 1, st =>
    if (st.turn : ℤ) < M ∧ 0 < st.atkCurr ∧ 0 < st.defCurr then
      runLoop chart L A D M s fuel (doTurn chart L A D st s)
    else st

/-- The response model `BattleOutcome`. -/
structure BattleOutcome where
  winner : Option String
  turns : ℕ
  log : List String
deriving DecidableEq

/-- The request model `BattleRequest` (defaults are applied inside
`simulate_battle`, mirroring the `or`-defaulting in the source). -/
structure BattleRequest where
  attacker : String
  defender : String
  attacker_moves : Option (List String)
  defender_moves : Option (List String)
  level : Option ℤ
  max_turns : Option ℤ
  random_seed : Option ℤ

/-- Derivation of one side's battle-long data from its loaded creature:
max HP and level-scaled attack / special-attack / speed, with missing base
stats defaulting to 10. -/
def mkBattler (p : Pokemon) (L : ℤ) (mv : Move) : Battler :=
  { name := p.name, types := p.types,
    maxHp := compute_hp_from_base ((p.stats "hp").getD 10) L,
    attack := stat_at_level ((p.stats "attack").getD 10) L,
    spAtk := stat_at_level ((p.stats "special-attack").getD 10) L,
    speed := stat_at_level ((p.stats "speed").getD 10) L,
    move := mv }

/-- `simulate_battle(req)` given pure loaders, a type chart and the random
stream. `none` models the request failing with an exception (which in the
source can only come from `select_move` on a creature with no types; loader
failures abort the request before the loop and are outside this model's
scope, the loaders here being total). The loop guard uses
`req.max_turns or 200` — so `max_turns = 0` falls back to the default 200. -/
def simulate_battle (loadPoke : String → Pokemon) (loadMove : String → Option Move)
    (chart : String → Option (String → Option PyFloat)) (req : BattleRequest)
    (s : ℕ → PyFloat) : Option BattleOutcome :=
  let A := loadPoke req.attacker
  let D := loadPoke req.defender
  let L := pyOr req.level 50
  match select_move A req.attacker_moves loadMove, select_move D req.defender_moves loadMove with
  | some am, some dm =>
    let BA := mkBattler A L am
    let BD := mkBattler D L dm
    let M := pyOr req.max_turns 200
    let st0 : BState :=
      { atkCurr := BA.maxHp, defCurr := BD.maxHp, atkStatus := none, defStatus := none,
        log := [], turn := 0, i := 0 }
    let fin := runLoop chart L BA BD M s M.toNat st0
    let winner : Option String :=
      if 0 < fin.atkCurr ∧ fin.defCurr ≤ 0 then some BA.name
      else if 0 < fin.defCurr ∧ fin.atkCurr ≤ 0 then some BD.name
      else none
    some { winner := winner, turns := fin.turn, log := fin.log }
  | _, _ => none

/-- The seeding step at the top of the endpoint: when the request carries a
seed, the stream used by the whole battle is the one deterministically
produced from that seed by the PRNG; otherwise the ambient (unseeded,
request-order-dependent) stream is used. -/
def simulate_seeded (prng : ℤ → ℕ → PyFloat) (ambient : ℕ → PyFloat)
    (loadPoke : String → Pokemon) (loadMove : String → Option Move)
    (chart : String → Option (String → Option PyFloat)) (req : BattleRequest) :
    Option BattleOutcome :=
  let s : ℕ → PyFloat :=
    match req.random_seed with
    | some z => prng z
    | none => ambient
  simulate_battle loadPoke loadMove chart req s

/-! ### Concrete fixtures used by counterexamples and witnesses -/

/-- A plain damaging move with no accuracy value and no effect text. -/
def tackle : Move :=
  { name := "tackle", power := some 40, accuracy := none, type := "normal",
    damage_class := some "physical", effect_entries := [], effect_chance := none }

/-- A special move whose effect text mentions burning, with a 10% chance. -/
def ember : Move :=
  { name := "ember", power := some 40, accuracy := some 100, type := "fire",
    damage_class := some "special",
    effect_entries := [{ effect := "Has a 10% chance to BURN the target.",
                         short_effect := "May burn." }],
    effect_chance := some 10 }

/-- A creature fixture with flat base stats. -/
def alphaPoke : Pokemon :=
  { name := "alpha",
    stats := fun k =>
      if k = "hp" then some 100 else
      if k = "attack" then some 50 else
      if k = "special-attack" then some 50 else
      if k = "speed" then some 50 else none,
    types := ["normal"], moves := [] }

/-- Creature loader fixture. -/
def loadPokeFix : String → Pokemon := fun _ => alphaPoke

/-- Move loader fixture. -/
def loadMoveFix : String → Option Move :=
  fun n => if n = "tackle" then some tackle else none

/-- Empty type chart (every lookup defaults to 1.0). -/
def chartEmpty : String → Option (String → Option PyFloat) := fun _ => none

/-- Constant random stream of raw draws 0.5. -/
def streamHalf : ℕ → PyFloat := fun _ => ⟨1, 2⟩

/-- A request carrying `max_turns = 0`. -/
def req0 : BattleRequest :=
  { attacker := "a", defender := "b", attacker_moves := some ["tackle"],
    defender_moves := some ["tackle"], level := none, max_turns := some 0,
    random_seed := none }

/-- The same request with `max_turns = 5`. -/
def req5 : BattleRequest :=
  { req0 with max_turns := some 5 }

/-- The same request with a seed. -/
def reqSeeded : BattleRequest :=
  { req0 with max_turns := some 5, random_seed := some 7 }

/-- The battler derived from `alphaPoke` at level 50 with `tackle`. -/
def battlerFix : Battler := mkBattler alphaPoke 50 tackle

/-! ### Shared helper lemmas -/

/-- `calc_damage` is clamped below by 1. -/
theorem one_le_calc_damage (level power : ℤ) (attack defense modifier r : PyFloat) :
    1 ≤ calc_damage level power attack defense modifier r := by
  simp only [calc_damage]
  exact le_max_left _ _

/-! ### C3 — the `computeMaxHP(100, 50)` scenario -/

/-- C3 (counterexample): `compute_hp_from_base 100 50` is not 225 as the
claim asserts; the claimed formula `max(1, floor((2*100+31)*50/100+50+10))`
evaluates to 175, not 225 (the spec's intermediate value 165.5 is an
arithmetic slip for 115.5). -/
theorem claim_c3_counterexample : compute_hp_from_base 100 50 ≠ 225 := by decide

/-- C3 (amended): `compute_hp_from_base 100 50` equals 175, which is exactly
`max(1, floor((2*100+31)*50/100 + 50 + 10))` (the claimed formula, correctly
evaluated: floor(115.5 + 60) = 175). -/
theorem claim_c3_amended :
    compute_hp_from_base 100 50 = 175 ∧ (175 : ℤ) = max 1 ((2 * 100 + 31) * 50 / 100 + 50 + 10) := by
  decide

/-! ### C10 — `calc_damage` lower bound -/

/-- C10: `calc_damage` returns an integer at least 1 for every combination
of level, power, attack, defense, modifier (including modifier 0 and
defense 0) and random draw; consequently a landed damaging hit, which
replaces the defender's HP `curr > 0` by `max(0, curr - dmg)`, strictly
decreases it — i.e. subtracts at least 1 HP. -/
theorem claim_c10 :
    (∀ (level power : ℤ) (attack defense modifier r : PyFloat),
        1 ≤ calc_damage level power attack defense modifier r) ∧
    (∀ (curr level power : ℤ) (attack defense modifier r : PyFloat),
        0 < curr → max 0 (curr - calc_damage level power attack defense modifier r) < curr) := by
  refine ⟨fun l p a d m r => one_le_calc_damage l p a d m r, fun curr l p a d m r hc => ?_⟩
  have h1 := one_le_calc_damage l p a d m r
  exact max_lt hc (by omega)

/-- C10 (witness): instantiation at HP 5 against concrete damage inputs. -/
theorem claim_c10_witness :
    0 < (5 : ℤ) ∧ max 0 (5 - calc_damage 50 40 70 70 1 ⟨1, 2⟩) < 5 :=
  ⟨by decide, claim_c10.2 5 50 40 70 70 1 ⟨1, 2⟩ (by decide)⟩

/-! ### C6 — the accuracy check -/

/-- C6: a move with absent accuracy hits unconditionally (for every stream
and position, with no draw consumed); with accuracy `a` present it hits
exactly when the drawn uniform integer in `[1,100]` is at most `max 1 a`;
and when the check misses, the action leaves the target's HP and status
unchanged, appending only the miss line. -/
theorem claim_c6 :
    (∀ (s : ℕ → PyFloat) (i : ℕ), hits none s i = (true, i)) ∧
    (∀ (a : ℤ) (s : ℕ → PyFloat) (i : ℕ),
        (hits (some a) s i).1 = true ↔ randint100 (s i) ≤ max 1 a) ∧
    (∀ (chart : String → Option (String → Option PyFloat)) (L : ℤ) (user target : Battler)
        (uSt tSt : Option String) (curr : ℤ) (s : ℕ → PyFloat) (i : ℕ),
        (hits user.move.accuracy s i).1 = false →
        doActionCore chart L user target uSt tSt curr s i =
          (curr, tSt, [user.name ++ " used " ++ user.move.name ++ " but it missed!"],
            (hits user.move.accuracy s i).2)) := by
  refine ⟨fun s i => rfl, fun a s i => ?_, fun chart L user target uSt tSt curr s i hmiss => ?_⟩
  · simp [hits]
  · simp [doActionCore, hmiss]

/-- C6 (witness): a concrete miss — accuracy 50 against a drawn 100 —
leaves HP and status untouched. -/
theorem claim_c6_witness :
    (hits (mkBattler alphaPoke 50 { ember with accuracy := some 50 }).move.accuracy
        (fun _ => ⟨99, 100⟩) 0).1 = false ∧
    doActionCore chartEmpty 50 (mkBattler alphaPoke 50 { ember with accuracy := some 50 })
        battlerFix none (some "poison") 20 (fun _ => ⟨99, 100⟩) 0 =
      (20, some "poison", ["alpha used ember but it missed!"],
        (hits (mkBattler alphaPoke 50 { ember with accuracy := some 50 }).move.accuracy
          (fun _ => ⟨99, 100⟩) 0).2) :=
  ⟨by decide,
   claim_c6.2.2 chartEmpty 50 (mkBattler alphaPoke 50 { ember with accuracy := some 50 })
     battlerFix none (some "poison") 20 (fun _ => ⟨99, 100⟩) 0 (by decide)⟩

/-! ### C7 — probabilistic status application -/

/-- C7: `apply_status_chance` returns the target's current status unchanged
when the move carries no detectable status; otherwise, when the effect
chance is positive and the drawn uniform integer in `[1,100]` is at most
the chance, it returns the newly detected status (overwriting whatever the
target had); in every other case (roll failed, or chance absent / not
positive) it returns the current status unchanged. -/
theorem claim_c7 (move : Move) (ts : Option String) (s : ℕ → PyFloat) (i : ℕ) :
    (detect_status_from_move move = none → apply_status_chance move ts s i = (ts, i)) ∧
    (∀ st, detect_status_from_move move = some st →
      ((0 < move.effect_chance.getD 0 ∧ randint100 (s i) ≤ move.effect_chance.getD 0) →
          apply_status_chance move ts s i = (some st, i + 1)) ∧
      ((0 < move.effect_chance.getD 0 ∧ ¬ randint100 (s i) ≤ move.effect_chance.getD 0) →
          apply_status_chance move ts s i = (ts, i + 1)) ∧
      (¬ 0 < move.effect_chance.getD 0 → apply_status_chance move ts s i = (ts, i))) := by
  constructor
  · intro h
    simp [apply_status_chance, h]
  · intro st hdet
    refine ⟨?_, ?_, ?_⟩
    · rintro ⟨hc, hr⟩
      simp [apply_status_chance, hdet, hc, hr]
    · rintro ⟨hc, hr⟩
      simp [apply_status_chance, hdet, hc, hr]
    · intro hc
      simp [apply_status_chance, hdet, hc]

/-- C7 (witness): `ember` (detected burn, 10% chance) against a poisoned
target with a successful roll overwrites poison with burn and consumes one
draw. -/
theorem claim_c7_witness :
    detect_status_from_move ember = some "burn" ∧
    apply_status_chance ember (some "poison") (fun _ => ⟨1, 50⟩) 3 = (some "burn", 3 + 1) :=
  ⟨by decide,
   ((claim_c7 ember (some "poison") (fun _ => ⟨1, 50⟩) 3).2 "burn" (by decide)).1 (by decide)⟩

/-! ### C4 — end-of-turn status ticks -/

/-- C4 (counterexample): `apply_eot` on a side whose HP already reached 0
still emits the burn tick log line — refuting the claim that no
end-of-turn tick line is emitted for a side that already fainted. -/
theorem claim_c4_counterexample : (apply_eot "muk" (some "burn") 0 100).2 ≠ [] := by decide

/-- C4 (amended): at end of turn a burned side takes
`max(1, floor(maxHP/16))` and a poisoned side `max(1, floor(maxHP/8))`,
floored at 0 HP — applied and logged regardless of whether the side's HP is
still above 0 (a fainted side keeps HP 0 but still receives the tick log
line); a side with neither status is left unchanged with no log line. -/
theorem claim_c4_amended (name : String) (st : Option String) (curr maxhp : ℤ) :
    (st = some "burn" →
      apply_eot name st curr maxhp =
        (max 0 (curr - max 1 (pyInt (PyFloat.ofInt maxhp / 16))),
         [name ++ " is hurt by its burn for " ++
            toString (max 1 (pyInt (PyFloat.ofInt maxhp / 16))) ++ " HP."])) ∧
    (st = some "poison" →
      apply_eot name st curr maxhp =
        (max 0 (curr - max 1 (pyInt (PyFloat.ofInt maxhp / 8))),
         [name ++ " is hurt by poison for " ++
            toString (max 1 (pyInt (PyFloat.ofInt maxhp / 8))) ++ " HP."])) ∧
    (st ≠ some "burn" → st ≠ some "poison" → apply_eot name st curr maxhp = (curr, [])) := by
  refine ⟨fun h => ?_, fun h => ?_, fun h1 h2 => ?_⟩
  · simp [apply_eot, h]
  · simp [apply_eot, h]
  · simp [apply_eot, h1, h2]

/-- C4 (witness): the burn tick applied to an already-fainted side (HP 0,
max HP 100): HP stays 0 and the tick line is still emitted. -/
theorem claim_c4_witness :
    apply_eot "muk" (some "burn") 0 100 =
      (max 0 (0 - max 1 (pyInt (PyFloat.ofInt 100 / 16))),
       ["muk is hurt by its burn for " ++
          toString (max 1 (pyInt (PyFloat.ofInt 100 / 16))) ++ " HP."]) :=
  (claim_c4_amended "muk" (some "burn") 0 100).1 rfl

/-! ### C2 — determinism under a supplied seed -/

/-- C2: when the request carries a seed, the battle outcome (winner, turn
count, and the full log, byte for byte) is a function of the request and
the PRNG alone: two runs under arbitrary (different) ambient stream states
produce identical outcomes, because the stream is re-seeded once at the
start of the request. -/
theorem claim_c2 (prng : ℤ → ℕ → PyFloat) (ambient1 ambient2 : ℕ → PyFloat)
    (loadPoke : String → Pokemon) (loadMove : String → Option Move)
    (chart : String → Option (String → Option PyFloat)) (req : BattleRequest) (z : ℤ)
    (h : req.random_seed = some z) :
    simulate_seeded prng ambient1 loadPoke loadMove chart req =
      simulate_seeded prng ambient2 loadPoke loadMove chart req := by
  unfold simulate_seeded
  rw [h]

/-- C2 (witness): concrete seeded request run under two different ambient
streams. -/
theorem claim_c2_witness :
    reqSeeded.random_seed = some 7 ∧
    simulate_seeded (fun _ _ => ⟨1, 2⟩) (fun _ => ⟨0, 1⟩) loadPokeFix loadMoveFix chartEmpty
        reqSeeded =
      simulate_seeded (fun _ _ => ⟨1, 2⟩) (fun _ => ⟨1, 3⟩) loadPokeFix loadMoveFix chartEmpty
        reqSeeded :=
  ⟨rfl,
   claim_c2 (fun _ _ => ⟨1, 2⟩) (fun _ => ⟨0, 1⟩) (fun _ => ⟨1, 3⟩) loadPokeFix loadMoveFix
     chartEmpty reqSeeded 7 rfl⟩

/-! ### C1 — loop termination and the `max_turns = 0` case -/

/-- An action slot never changes the turn counter. -/
theorem actOnce_turn (chart : String → Option (String → Option PyFloat)) (L : ℤ)
    (A D : Battler) (b : Bool) (st : BState) (s : ℕ → PyFloat) :
    (actOnce chart L A D b st s).turn = st.turn := by
  unfold actOnce
  split
  · rfl
  · split <;> rfl

/-- Each turn increments the turn counter by exactly one. -/
theorem doTurn_turn (chart : String → Option (String → Option PyFloat)) (L : ℤ)
    (A D : Battler) (st : BState) (s : ℕ → PyFloat) :
    (doTurn chart L A D st s).turn = st.turn + 1 := by
  unfold doTurn
  dsimp only
  rw [actOnce_turn, actOnce_turn]

/-- The loop guard `turn < M` bounds the final turn counter by
`max(initial turn, M)`, for any amount of fuel. -/
theorem runLoop_turn_le (chart : String → Option (String → Option PyFloat)) (L : ℤ)
    (A D : Battler) (M : ℤ) (s : ℕ → PyFloat) :
    ∀ (fuel : ℕ) (st : BState),
      ((runLoop chart L A D M s fuel st).turn : ℤ) ≤ max (st.turn : ℤ) M := by
  intro fuel
  induction fuel with
  | zero => intro st; exact le_max_left _ _
  | succ n ih =>
    intro st
    simp only [runLoop]
    split
    · next h =>
      have hb := ih (doTurn chart L A D st s)
      rw [doTurn_turn] at hb
      push_cast at hb
      have h1 : (st.turn : ℤ) < M := h.1
      have h2 : ((st.turn : ℤ) + 1) ⊔ M = M := max_eq_right (by omega)
      rw [h2] at hb
      exact le_trans hb (le_max_right _ _)
    · exact le_max_left _ _

set_option maxRecDepth 20000 in
/-- C1 (counterexample): a request with `max_turns = 0` does not stop at 0
turns with an empty log and a draw — Python's `req.max_turns or 200`
treats 0 as absent, so this concrete battle runs 7 turns, produces a
nonempty log and a winner. -/
theorem claim_c1_counterexample :
    (simulate_battle loadPokeFix loadMoveFix chartEmpty req0 streamHalf).map BattleOutcome.turns =
        some 7 ∧
    (simulate_battle loadPokeFix loadMoveFix chartEmpty req0 streamHalf).map BattleOutcome.turns ≠
        some 0 ∧
    (simulate_battle loadPokeFix loadMoveFix chartEmpty req0 streamHalf).map BattleOutcome.log ≠
        some [] ∧
    (simulate_battle loadPokeFix loadMoveFix chartEmpty req0 streamHalf).map BattleOutcome.winner ≠
        some none := by
  exact ⟨by decide, by decide, by decide, by decide⟩

/-- C1 (amended): the loop halts after at most `m` full turns for every
supplied positive `max_turns = m`; a supplied `max_turns = 0` is treated as
absent by the `or`-defaulting and the loop instead halts after at most the
default 200 turns. -/
theorem claim_c1_amended (loadPoke : String → Pokemon) (loadMove : String → Option Move)
    (chart : String → Option (String → Option PyFloat)) (req : BattleRequest)
    (s : ℕ → PyFloat) (t : ℕ)
    (h : (simulate_battle loadPoke loadMove chart req s).map BattleOutcome.turns = some t) :
    (∀ m, req.max_turns = some m → 0 < m → (t : ℤ) ≤ m) ∧
    (req.max_turns = some 0 → t ≤ 200) := by
  simp only [simulate_battle] at h
  split at h
  · next am dm ham hdm =>
    simp only [Option.map_some', Option.some.injEq] at h
    have hb := runLoop_turn_le chart (pyOr req.level 50)
      (mkBattler (loadPoke req.attacker) (pyOr req.level 50) am)
      (mkBattler (loadPoke req.defender) (pyOr req.level 50) dm)
      (pyOr req.max_turns 200) s (pyOr req.max_turns 200).toNat
      { atkCurr := (mkBattler (loadPoke req.attacker) (pyOr req.level 50) am).maxHp,
        defCurr := (mkBattler (loadPoke req.defender) (pyOr req.level 50) dm).maxHp,
        atkStatus := none, defStatus := none, log := [], turn := 0, i := 0 }
    rw [h] at hb
    constructor
    · intro m hm hmpos
      rw [hm] at hb
      have hM : pyOr (some m) 200 = m := by
        simp only [pyOr]
        rw [if_neg (by omega)]
      rw [hM] at hb
      have : ((0 : ℕ) : ℤ) ⊔ m = m := max_eq_right (by omega)
      rw [this] at hb
      exact hb
    · intro hm
      rw [hm] at hb
      have hM : pyOr (some 0) 200 = 200 := by simp [pyOr]
      rw [hM] at hb
      have : ((0 : ℕ) : ℤ) ⊔ (200 : ℤ) = 200 := max_eq_right (by omega)
      rw [this] at hb
      exact_mod_cast hb
  · simp at h

set_option maxRecDepth 20000 in
/-- C1 (witness): with `max_turns = 5` the concrete battle (which would
otherwise last 7 turns) is cut off at exactly 5 turns, within the bound. -/
theorem claim_c1_witness :
    (simulate_battle loadPokeFix loadMoveFix chartEmpty req5 streamHalf).map BattleOutcome.turns =
        some 5 ∧
    ((5 : ℕ) : ℤ) ≤ (5 : ℤ) :=
  ⟨by decide,
   (claim_c1_amended loadPokeFix loadMoveFix chartEmpty req5 streamHalf 5 (by decide)).1 5 rfl
     (by decide)⟩

/-! ### C9 — HP bounds and monotonicity -/

/-- Subtracting at-least-1 damage, floored at 0, stays within `[0, curr]`. -/
theorem hp_sub_bound (curr d : ℤ) (hc : 0 ≤ curr) (hd : 1 ≤ d) :
    0 ≤ max 0 (curr - d) ∧ max 0 (curr - d) ≤ curr :=
  ⟨le_max_left _ _, max_le hc (by omega)⟩

/-- The post-paralysis part of an action keeps the target's HP in `[0, curr]`. -/
theorem doActionCore_hp (chart : String → Option (String → Option PyFloat)) (L : ℤ)
    (user target : Battler) (uSt tSt : Option String) (curr : ℤ) (s : ℕ → PyFloat) (i : ℕ)
    (hc : 0 ≤ curr) :
    0 ≤ (doActionCore chart L user target uSt tSt curr s i).1 ∧
    (doActionCore chart L user target uSt tSt curr s i).1 ≤ curr := by
  simp only [doActionCore]
  repeat' split
  all_goals
    first
      | exact hp_sub_bound _ _ hc (one_le_calc_damage _ _ _ _ _ _)
      | exact ⟨hc, le_refl _⟩

/-- A full action (paralysis gate included) keeps the target's HP in `[0, curr]`. -/
theorem doAction_hp (chart : String → Option (String → Option PyFloat)) (L : ℤ)
    (user target : Battler) (uSt tSt : Option String) (curr : ℤ) (s : ℕ → PyFloat) (i : ℕ)
    (hc : 0 ≤ curr) :
    0 ≤ (doAction chart L user target uSt tSt curr s i).1 ∧
    (doAction chart L user target uSt tSt curr s i).1 ≤ curr := by
  unfold doAction
  repeat' split
  all_goals
    first
      | exact doActionCore_hp _ _ _ _ _ _ _ _ _ hc
      | exact ⟨hc, le_refl _⟩

/-- An end-of-turn tick keeps HP in `[0, curr]`. -/
theorem apply_eot_hp (name : String) (st : Option String) (curr maxhp : ℤ) (hc : 0 ≤ curr) :
    0 ≤ (apply_eot name st curr maxhp).1 ∧ (apply_eot name st curr maxhp).1 ≤ curr := by
  unfold apply_eot
  repeat' split
  all_goals
    first
      | exact hp_sub_bound _ _ hc (le_max_left _ _)
      | exact ⟨hc, le_refl _⟩

/-- One action slot keeps both HPs within `[0, previous]`. -/
theorem actOnce_hp (chart : String → Option (String → Option PyFloat)) (L : ℤ)
    (A D : Battler) (b : Bool) (st : BState) (s : ℕ → PyFloat)
    (h1 : 0 ≤ st.atkCurr) (h2 : 0 ≤ st.defCurr) :
    0 ≤ (actOnce chart L A D b st s).atkCurr ∧
    (actOnce chart L A D b st s).atkCurr ≤ st.atkCurr ∧
    0 ≤ (actOnce chart L A D b st s).defCurr ∧
    (actOnce chart L A D b st s).defCurr ≤ st.defCurr := by
  unfold actOnce
  split
  · exact ⟨h1, le_refl _, h2, le_refl _⟩
  · split
    · exact ⟨h1, le_refl _, (doAction_hp _ _ _ _ _ _ _ _ _ h2).1,
        (doAction_hp _ _ _ _ _ _ _ _ _ h2).2⟩
    · exact ⟨(doAction_hp _ _ _ _ _ _ _ _ _ h1).1, (doAction_hp _ _ _ _ _ _ _ _ _ h1).2,
        h2, le_refl _⟩

/-- The two action slots followed by the two end-of-turn ticks keep both
HPs within `[0, previous]`. -/
theorem turnBody_hp (chart : String → Option (String → Option PyFloat)) (L : ℤ)
    (A D : Battler) (b1 b2 : Bool) (stx : BState) (s : ℕ → PyFloat)
    (h1 : 0 ≤ stx.atkCurr) (h2 : 0 ≤ stx.defCurr) :
    (0 ≤ (apply_eot A.name (actOnce chart L A D b2 (actOnce chart L A D b1 stx s) s).atkStatus
            (actOnce chart L A D b2 (actOnce chart L A D b1 stx s) s).atkCurr A.maxHp).1 ∧
      (apply_eot A.name (actOnce chart L A D b2 (actOnce chart L A D b1 stx s) s).atkStatus
          (actOnce chart L A D b2 (actOnce chart L A D b1 stx s) s).atkCurr A.maxHp).1 ≤
        stx.atkCurr) ∧
    (0 ≤ (apply_eot D.name (actOnce chart L A D b2 (actOnce chart L A D b1 stx s) s).defStatus
            (actOnce chart L A D b2 (actOnce chart L A D b1 stx s) s).defCurr D.maxHp).1 ∧
      (apply_eot D.name (actOnce chart L A D b2 (actOnce chart L A D b1 stx s) s).defStatus
          (actOnce chart L A D b2 (actOnce chart L A D b1 stx s) s).defCurr D.maxHp).1 ≤
        stx.defCurr) := by
  obtain ⟨p1, p2, p3, p4⟩ := actOnce_hp chart L A D b1 stx s h1 h2
  obtain ⟨q1, q2, q3, q4⟩ := actOnce_hp chart L A D b2 _ s p1 p3
  obtain ⟨r1, r2⟩ := apply_eot_hp A.name
    (actOnce chart L A D b2 (actOnce chart L A D b1 stx s) s).atkStatus
    (actOnce chart L A D b2 (actOnce chart L A D b1 stx s) s).atkCurr A.maxHp q1
  obtain ⟨w1, w2⟩ := apply_eot_hp D.name
    (actOnce chart L A D b2 (actOnce chart L A D b1 stx s) s).defStatus
    (actOnce chart L A D b2 (actOnce chart L A D b1 stx s) s).defCurr D.maxHp q3
  exact ⟨⟨r1, le_trans r2 (le_trans q2 p2)⟩, ⟨w1, le_trans w2 (le_trans q4 p4)⟩⟩

/-- One full turn keeps both HPs within `[0, previous]`. -/
theorem doTurn_hp (chart : String → Option (String → Option PyFloat)) (L : ℤ)
    (A D : Battler) (st : BState) (s : ℕ → PyFloat)
    (h1 : 0 ≤ st.atkCurr) (h2 : 0 ≤ st.defCurr) :
    0 ≤ (doTurn chart L A D st s).atkCurr ∧
    (doTurn chart L A D st s).atkCurr ≤ st.atkCurr ∧
    0 ≤ (doTurn chart L A D st s).defCurr ∧
    (doTurn chart L A D st s).defCurr ≤ st.defCurr := by
  have h := turnBody_hp chart L A D
    (decide ((PyFloat.ofInt D.speed * (if st.defStatus = some "paralysis" then 1 / 2 else 1)) ≤
      (PyFloat.ofInt A.speed * (if st.atkStatus = some "paralysis" then 1 / 2 else 1))))
    (!decide ((PyFloat.ofInt D.speed * (if st.defStatus = some "paralysis" then 1 / 2 else 1)) ≤
      (PyFloat.ofInt A.speed * (if st.atkStatus = some "paralysis" then 1 / 2 else 1))))
    ({ st with
        turn := st.turn + 1,
        log := st.log ++ ["-- Turn " ++ toString (st.turn + 1) ++ " --"] }) s h1 h2
  exact ⟨h.1.1, h.1.2, h.2.1, h.2.2⟩

/-- Any run of the loop keeps both HPs within `[0, initial]`. -/
theorem runLoop_hp (chart : String → Option (String → Option PyFloat)) (L : ℤ)
    (A D : Battler) (M : ℤ) (s : ℕ → PyFloat) :
    ∀ (fuel : ℕ) (st : BState), 0 ≤ st.atkCurr → 0 ≤ st.defCurr →
      0 ≤ (runLoop chart L A D M s fuel st).atkCurr ∧
      (runLoop chart L A D M s fuel st).atkCurr ≤ st.atkCurr ∧
      0 ≤ (runLoop chart L A D M s fuel st).defCurr ∧
      (runLoop chart L A D M s fuel st).defCurr ≤ st.defCurr := by
  intro fuel
  induction fuel with
  | zero => intro st h1 h2; exact ⟨h1, le_refl _, h2, le_refl _⟩
  | succ n ih =>
    intro st h1 h2
    simp only [runLoop]
    split
    · obtain ⟨t1, t2, t3, t4⟩ := doTurn_hp chart L A D st s h1 h2
      obtain ⟨u1, u2, u3, u4⟩ := ih (doTurn chart L A D st s) t1 t3
      exact ⟨u1, le_trans u2 t2, u3, le_trans u4 t4⟩
    · exact ⟨h1, le_refl _, h2, le_refl _⟩

/-- Once the loop guard fails, the loop is the identity for any fuel. -/
theorem runLoop_stop (chart : String → Option (String → Option PyFloat)) (L : ℤ)
    (A D : Battler) (M : ℤ) (s : ℕ → PyFloat) (fuel : ℕ) (st : BState)
    (h : ¬((st.turn : ℤ) < M ∧ 0 < st.atkCurr ∧ 0 < st.defCurr)) :
    runLoop chart L A D M s fuel st = st := by
  cases fuel with
  | zero => rfl
  | succ n =>
    simp only [runLoop]
    rw [if_neg h]

/-- Splitting a loop run: `k + d` units of fuel are the first `k` then `d`. -/
theorem runLoop_add (chart : String → Option (String → Option PyFloat)) (L : ℤ)
    (A D : Battler) (M : ℤ) (s : ℕ → PyFloat) :
    ∀ (k d : ℕ) (st : BState),
      runLoop chart L A D M s (k + d) st =
        runLoop chart L A D M s d (runLoop chart L A D M s k st) := by
  intro k
  induction k with
  | zero => intro d st; rw [Nat.zero_add]; rfl
  | succ n ih =>
    intro d st
    rw [Nat.succ_add]
    simp only [runLoop]
    split
    · exact ih d (doTurn chart L A D st s)
    · next h => exact (runLoop_stop chart L A D M s d st h).symm

/-- C9: starting from a state whose HPs lie within each side's computed max
HP (as at battle start, where they equal it), every point of the loop keeps
each side's current HP within `[0, maxHP]`, and current HP never increases
from a point of the loop to any later point. -/
theorem claim_c9 (chart : String → Option (String → Option PyFloat)) (L : ℤ)
    (A D : Battler) (M : ℤ) (s : ℕ → PyFloat) (st : BState) (k d : ℕ)
    (h1 : 0 ≤ st.atkCurr) (h1m : st.atkCurr ≤ A.maxHp)
    (h2 : 0 ≤ st.defCurr) (h2m : st.defCurr ≤ D.maxHp) :
    (0 ≤ (runLoop chart L A D M s k st).atkCurr ∧
     (runLoop chart L A D M s k st).atkCurr ≤ A.maxHp ∧
     0 ≤ (runLoop chart L A D M s k st).defCurr ∧
     (runLoop chart L A D M s k st).defCurr ≤ D.maxHp) ∧
    ((runLoop chart L A D M s (k + d) st).atkCurr ≤ (runLoop chart L A D M s k st).atkCurr ∧
     (runLoop chart L A D M s (k + d) st).defCurr ≤ (runLoop chart L A D M s k st).defCurr) := by
  obtain ⟨a1, a2, a3, a4⟩ := runLoop_hp chart L A D M s k st h1 h2
  obtain ⟨b1, b2, b3, b4⟩ := runLoop_hp chart L A D M s d (runLoop chart L A D M s k st) a1 a3
  refine ⟨⟨a1, le_trans a2 h1m, a3, le_trans a4 h2m⟩, ?_, ?_⟩
  · rw [runLoop_add]; exact b2
  · rw [runLoop_add]; exact b4

/-- The battle-start state for the `battlerFix` mirror match. -/
def stFix : BState :=
  { atkCurr := battlerFix.maxHp, defCurr := battlerFix.maxHp, atkStatus := none,
    defStatus := none, log := [], turn := 0, i := 0 }

set_option maxRecDepth 20000 in
/-- C9 (witness): two and five turns into the concrete mirror match, the
bounds and the point-to-point monotonicity hold. -/
theorem claim_c9_witness :
    (0 : ℤ) ≤ stFix.atkCurr ∧ stFix.atkCurr ≤ battlerFix.maxHp ∧
    (runLoop chartEmpty 50 battlerFix battlerFix 200 streamHalf (2 + 3) stFix).atkCurr ≤
      (runLoop chartEmpty 50 battlerFix battlerFix 200 streamHalf 2 stFix).atkCurr :=
  ⟨by decide, by decide,
   (claim_c9 chartEmpty 50 battlerFix battlerFix 200 streamHalf stFix 2 3
     (by decide) (by decide) (by decide) (by decide)).2.1⟩

/-! ### C5 — fallback move selection -/

/-- The stable descending sort of a nonempty list is nonempty. -/
theorem sortDescPower_nil : ∀ l : List Move, sortDescPower l = [] → l = [] := by
  intro l h
  cases l with
  | nil => rfl
  | cons x xs =>
    exfalso
    simp only [sortDescPower] at h
    cases hsort : sortDescPower xs with
    | nil => rw [hsort] at h; simp [insertDesc] at h
    | cons y ys =>
      rw [hsort] at h
      simp only [insertDesc] at h
      split at h <;> simp at h

/-- The head of the stable descending sort is the first-encountered
maximum-key element: it bounds every element, and `find?` for
"key at least the head's key" returns the head itself. -/
theorem sortHead_max_find : ∀ (l : List Move) (m : Move) (rest : List Move),
    sortDescPower l = m :: rest →
    (∀ c ∈ l, movKey c ≤ movKey m) ∧
    l.find? (fun c => decide (movKey m ≤ movKey c)) = some m := by
  intro l
  induction l with
  | nil => intro m rest h; simp [sortDescPower] at h
  | cons x xs ih =>
    intro m rest h
    simp only [sortDescPower] at h
    cases hs : sortDescPower xs with
    | nil =>
      have hxs : xs = [] := sortDescPower_nil xs hs
      rw [hs] at h
      simp only [insertDesc] at h
      injection h with h1 h2
      subst h1
      subst hxs
      constructor
      · intro c hc
        rcases List.mem_cons.mp hc with rfl | hc'
        · exact le_refl _
        · cases hc'
      · exact List.find?_cons_of_pos _ (by simp)
    | cons m' rest' =>
      rw [hs] at h
      obtain ⟨hbound, hfind⟩ := ih m' rest' hs
      simp only [insertDesc] at h
      by_cases hle : movKey m' ≤ movKey x
      · rw [if_pos hle] at h
        injection h with h1 h2
        subst h1
        constructor
        · intro c hc
          rcases List.mem_cons.mp hc with rfl | hc'
          · exact le_refl _
          · exact le_trans (hbound c hc') hle
        · exact List.find?_cons_of_pos _ (by simp)
      · rw [if_neg hle] at h
        injection h with h1 h2
        subst h1
        push_neg at hle
        constructor
        · intro c hc
          rcases List.mem_cons.mp hc with rfl | hc'
          · exact le_of_lt hle
          · exact hbound c hc'
        · rw [List.find?_cons_of_neg]
          · exact hfind
          · simp only [decide_eq_true_iff]
            omega

/-- The fallback scan reads only the first 40 known moves: replacing the
move list by its 40-prefix leaves the selection unchanged. -/
theorem select_move_take40 (poke : Pokemon) (provided : Option (List String))
    (load : String → Option Move) :
    select_move poke provided load =
      select_move { poke with moves := poke.moves.take 40 } provided load := by
  simp only [select_move, fallbackCandidates, List.take_take, min_self]

/-- C5: with no explicit move list, `select_move` never raises (given the
creature has a first type): it scans at most the first 40 known moves, its
candidates all have nonzero (hence, for the nonnegative powers the loader
supplies, positive) power and a physical/special damage class, the result
bounds every candidate's power and is the first-encountered maximum
(`find?`), and when no candidate qualifies the result is the synthetic
"struggle" move with power 50, accuracy 100, the creature's first type,
physical class, no effect text and no effect chance. -/
theorem claim_c5 (poke : Pokemon) (load : String → Option Move) (t : String) (ts : List String)
    (htypes : poke.types = t :: ts)
    (hpow : poke.moves.all (fun n => ((load n).all fun m => decide (0 ≤ movKey m))) = true) :
    ∃ m, select_move poke none load = some m ∧
      (fallbackCandidates poke load = [] →
        m = { name := "struggle", power := some 50, accuracy := some 100, type := t,
              damage_class := some "physical", effect_entries := [], effect_chance := none }) ∧
      (∀ c ∈ fallbackCandidates poke load,
        movKey c ≤ movKey m ∧ 0 < movKey c ∧
        (c.damage_class = some "physical" ∨ c.damage_class = some "special")) ∧
      (fallbackCandidates poke load ≠ [] →
        (fallbackCandidates poke load).find? (fun c => decide (movKey m ≤ movKey c)) = some m) ∧
      select_move poke none load = select_move { poke with moves := poke.moves.take 40 } none load := by
  have hcand : ∀ c ∈ fallbackCandidates poke load,
      0 < movKey c ∧ (c.damage_class = some "physical" ∨ c.damage_class = some "special") := by
    intro c hcand
    obtain ⟨hmem, hpred⟩ := List.mem_filter.mp hcand
    rw [Bool.and_eq_true] at hpred
    obtain ⟨h1, h2⟩ := hpred
    obtain ⟨n, hn, hload⟩ := List.mem_filterMap.mp hmem
    have hn' : n ∈ poke.moves := List.take_subset _ _ hn
    have hnn := List.all_eq_true.mp hpow n hn'
    rw [hload] at hnn
    simp only [Option.all_some, decide_eq_true_iff] at hnn
    have hne : movKey c ≠ 0 := by
      simpa [truthyPower, movKey] using h1
    refine ⟨by omega, ?_⟩
    simpa [isDamagingClass] using h2
  cases hc : sortDescPower (fallbackCandidates poke load) with
  | nil =>
    have hnil : fallbackCandidates poke load = [] := sortDescPower_nil _ hc
    refine ⟨struggle t, ?_, fun _ => rfl, ?_, ?_, select_move_take40 poke none load⟩
    · simp [select_move, hc, htypes]
    · intro c hc'
      rw [hnil] at hc'
      cases hc'
    · intro hne
      exact absurd hnil hne
  | cons m rest =>
    obtain ⟨hb, hf⟩ := sortHead_max_find _ m rest hc
    refine ⟨m, ?_, ?_, ?_, fun _ => hf, select_move_take40 poke none load⟩
    · simp [select_move, hc]
    · intro hnil
      rw [hnil] at hc
      simp [sortDescPower] at hc
    · intro c hc'
      exact ⟨hb c hc', (hcand c hc').1, (hcand c hc').2⟩

/-- A second creature fixture whose move list exercises the fallback scan:
one damaging physical move, one failing load, one equal-power special move
(encountered later, so the tie is broken in favor of the first), and one
weaker move. -/
def betaPoke : Pokemon :=
  { alphaPoke with name := "beta", moves := ["slam", "ghost-move", "psybeam", "peck"] }

/-- Loader for `betaPoke`'s moves. -/
def loadMoveBeta : String → Option Move :=
  fun n =>
    if n = "slam" then some { tackle with name := "slam", power := some 80 }
    else if n = "psybeam" then
      some { tackle with name := "psybeam", power := some 80, damage_class := some "special" }
    else if n = "peck" then some { tackle with name := "peck", power := some 35 }
    else none

/-- C5 (witness): on `betaPoke` the fallback scan keeps the three loadable
damaging moves and selects `slam`, the first-encountered move of maximal
power 80. -/
theorem claim_c5_witness :
    betaPoke.types = "normal" :: [] ∧
    (∃ m, select_move betaPoke none loadMoveBeta = some m ∧
      (fallbackCandidates betaPoke loadMoveBeta = [] →
        m = { name := "struggle", power := some 50, accuracy := some 100, type := "normal",
              damage_class := some "physical", effect_entries := [], effect_chance := none }) ∧
      (∀ c ∈ fallbackCandidates betaPoke loadMoveBeta,
        movKey c ≤ movKey m ∧ 0 < movKey c ∧
        (c.damage_class = some "physical" ∨ c.damage_class = some "special")) ∧
      (fallbackCandidates betaPoke loadMoveBeta ≠ [] →
        (fallbackCandidates betaPoke loadMoveBeta).find?
          (fun c => decide (movKey m ≤ movKey c)) = some m) ∧
      select_move betaPoke none loadMoveBeta =
        select_move { betaPoke with moves := betaPoke.moves.take 40 } none loadMoveBeta) :=
  ⟨by decide, claim_c5 betaPoke loadMoveBeta "normal" [] (by decide) (by decide)⟩

/-! ### C8 — type-chart invariants -/

/-- The multiplier the upstream relations of `d` assign to defending type
`t`: the `no_damage_to` write wins (it is performed last), then
`half_damage_to`, then `double_damage_to`, else the 1.0 default. -/
def relVal (d : TypeData) (t : String) : PyFloat :=
  if t ∈ d.zero then 0 else if t ∈ d.half then 1 / 2 else if t ∈ d.double then 2 else 1

/-- A fold of constant-value updates leaves unlisted keys unchanged. -/
theorem updFold_not_mem (v0 : PyFloat) (t : String) :
    ∀ (ks : List String) (row : String → Option PyFloat), t ∉ ks →
      ks.foldl (fun m k => dUpd m k v0) row t = row t := by
  intro ks
  induction ks with
  | nil => intro row _; rfl
  | cons k ks ih =>
    intro row h
    rw [List.foldl_cons, ih _ (fun hm => h (List.mem_cons_of_mem _ hm))]
    have h2 : t ≠ k := fun he => h (he ▸ List.mem_cons_self _ _)
    simp [dUpd, h2]

/-- A fold of constant-value updates sets every listed key to the value. -/
theorem updFold_mem (v0 : PyFloat) (t : String) :
    ∀ (ks : List String) (row : String → Option PyFloat), t ∈ ks →
      ks.foldl (fun m k => dUpd m k v0) row t = some v0 := by
  intro ks
  induction ks with
  | nil => intro row h; cases h
  | cons k ks ih =>
    intro row h
    rw [List.foldl_cons]
    by_cases hk : t ∈ ks
    · exact ih _ hk
    · have ht : t = k := by
        rcases List.mem_cons.mp h with h1 | h2
        · exact h1
        · exact absurd h2 hk
      rw [updFold_not_mem v0 t ks _ hk]
      simp [dUpd, ht]

/-- On every listed defending type, the built row holds exactly the
relation-determined multiplier, independent of the pre-existing row. -/
theorem buildRow_char (L : List String) (d : TypeData) (prev : String → Option PyFloat)
    (t : String) (ht : t ∈ L) : buildRow L d prev t = some (relVal d t) := by
  simp only [buildRow, relVal]
  by_cases hz : t ∈ d.zero
  · rw [updFold_mem _ _ _ _ hz, if_pos hz]
  · rw [updFold_not_mem _ _ _ _ hz, if_neg hz]
    by_cases hh : t ∈ d.half
    · rw [updFold_mem _ _ _ _ hh, if_pos hh]
    · rw [updFold_not_mem _ _ _ _ hh, if_neg hh]
      by_cases hd : t ∈ d.double
      · rw [updFold_mem _ _ _ _ hd, if_pos hd]
      · rw [updFold_not_mem _ _ _ _ hd, if_neg hd]
        rw [updFold_mem _ _ _ _ ht]

/-- The chart's multiplier value set. -/
def ValOk (v : PyFloat) : Prop := v = 0 ∨ v = 1 / 2 ∨ v = 1 ∨ v = 2

/-- Every value stored in a row is in the multiplier value set. -/
def RowOk (row : String → Option PyFloat) : Prop := ∀ u w, row u = some w → ValOk w

/-- Every value stored in any row of the chart is in the value set. -/
def ChartOk (chart : String → Option (String → Option PyFloat)) : Prop :=
  ∀ a row, chart a = some row → RowOk row

/-- A fold of constant-value updates with an in-set value preserves `RowOk`. -/
theorem updFold_rowOk (v0 : PyFloat) (hv : ValOk v0) :
    ∀ (ks : List String) (row : String → Option PyFloat), RowOk row →
      RowOk (ks.foldl (fun m k => dUpd m k v0) row) := by
  intro ks
  induction ks with
  | nil => intro row h; exact h
  | cons k ks ih =>
    intro row h
    rw [List.foldl_cons]
    apply ih
    intro u w hw
    by_cases hu : u = k
    · simp [dUpd, hu] at hw
      exact hw ▸ hv
    · simp [dUpd, hu] at hw
      exact h u w hw

/-- Row construction preserves `RowOk`. -/
theorem buildRow_rowOk (L : List String) (d : TypeData) (prev : String → Option PyFloat)
    (h : RowOk prev) : RowOk (buildRow L d prev) := by
  simp only [buildRow]
  apply updFold_rowOk 0 (Or.inl rfl)
  apply updFold_rowOk (1 / 2) (Or.inr (Or.inl rfl))
  apply updFold_rowOk 2 (Or.inr (Or.inr (Or.inr rfl)))
  apply updFold_rowOk 1 (Or.inr (Or.inr (Or.inl rfl)))
  exact h

/-- One chart-building step preserves `ChartOk`. -/
theorem chartStep_chartOk (L : List String) (fetch : String → Option TypeData)
    (chart : String → Option (String → Option PyFloat)) (t : String)
    (h : ChartOk chart) : ChartOk (chartStep L fetch chart t) := by
  unfold chartStep
  cases hf : fetch t with
  | none => exact h
  | some d =>
    intro a row hrow
    dsimp only at hrow
    by_cases ha : a = d.name
    · subst ha
      rw [if_pos rfl] at hrow
      injection hrow with hre
      rw [← hre]
      apply buildRow_rowOk
      cases hcd : chart d.name with
      | none =>
        intro u w hw
        simp [hcd] at hw
      | some r0 =>
        intro u w hw
        simp only [hcd, Option.getD_some] at hw
        exact h d.name r0 hcd u w hw
    · rw [if_neg ha] at hrow
      exact h a row hrow

/-- Folding the chart-building step preserves `ChartOk`. -/
theorem foldl_chartOk (L : List String) (fetch : String → Option TypeData) :
    ∀ (l : List String) (chart : String → Option (String → Option PyFloat)),
      ChartOk chart → ChartOk (l.foldl (chartStep L fetch) chart) := by
  intro l
  induction l with
  | nil => intro chart h; exact h
  | cons t l ih =>
    intro chart h
    rw [List.foldl_cons]
    exact ih _ (chartStep_chartOk L fetch chart t h)

/-- Keys outside the processed list are untouched by the chart fold, given
that fetched records carry the listed name. -/
theorem foldl_chart_frame (L : List String) (fetch : String → Option TypeData) :
    ∀ (l : List String) (chart : String → Option (String → Option PyFloat)) (a : String),
      (∀ u ∈ l, Option.map TypeData.name (fetch u) = some u) → a ∉ l →
      (l.foldl (chartStep L fetch) chart) a = chart a := by
  intro l
  induction l with
  | nil => intro chart a _ _; rfl
  | cons u l ih =>
    intro chart a hnames ha
    rw [List.foldl_cons,
      ih _ _ (fun v hv => hnames v (List.mem_cons_of_mem _ hv))
        (fun hm => ha (List.mem_cons_of_mem _ hm))]
    have hu := hnames u (List.mem_cons_self _ _)
    unfold chartStep
    cases hf : fetch u with
    | none => rfl
    | some d =>
      rw [hf] at hu
      simp only [Option.map_some', Option.some.injEq] at hu
      have hau : a ≠ d.name := by
        rw [hu]
        intro he
        exact ha (he ▸ List.mem_cons_self _ _)
      simp [hau]

/-- After the chart fold, every processed type with successfully fetched,
name-consistent data owns a row characterized on all listed defending
types by its relations. -/
theorem foldl_chart_char (L : List String) (fetch : String → Option TypeData) :
    ∀ (l : List String) (chart : String → Option (String → Option PyFloat)),
      (∀ u ∈ l, Option.map TypeData.name (fetch u) = some u) →
      ∀ a ∈ l, ∀ d, fetch a = some d →
        ∃ row, (l.foldl (chartStep L fetch) chart) a = some row ∧
          ∀ u ∈ L, row u = some (relVal d u) := by
  intro l
  induction l with
  | nil => intro chart _ a ha; cases ha
  | cons t l ih =>
    intro chart hnames a ha d hd
    rw [List.foldl_cons]
    by_cases hal : a ∈ l
    · exact ih _ (fun v hv => hnames v (List.mem_cons_of_mem _ hv)) a hal d hd
    · have hat : a = t := by
        rcases List.mem_cons.mp ha with h | h
        · exact h
        · exact absurd h hal
      subst hat
      rw [foldl_chart_frame L fetch l _ a
        (fun v hv => hnames v (List.mem_cons_of_mem _ hv)) hal]
      unfold chartStep
      rw [hd]
      have hn : d.name = a := by
        have h0 := hnames a (List.mem_cons_self _ _)
        rw [hd] at h0
        simpa using h0
      refine ⟨buildRow L d ((chart d.name).getD (fun _ => none)), ?_, ?_⟩
      · simp [hn]
      · intro u hu
        exact buildRow_char L d _ u hu

/-- C8: when the upstream fetch succeeds for every listed type and returns
a record carrying that type's name, the built chart has every known type
name as an attacking key and as a defending key of every row over the
listed types, every stored multiplier is one of 0, 0.5, 1, 2, and every
attacking/defending pair without an explicit upstream relation maps to 1. -/
theorem claim_c8 (typesList : List String) (fetch : String → Option TypeData)
    (chart : String → Option (String → Option PyFloat))
    (hnames : ∀ t ∈ typesList, Option.map TypeData.name (fetch t) = some t)
    (hchart : chart = build_type_chart typesList fetch) :
    (∀ t ∈ typesList, ∃ row, chart t = some row) ∧
    (∀ a ∈ typesList, ∀ row, chart a = some row → ∀ t ∈ typesList, ∃ v, row t = some v) ∧
    (∀ a row t v, chart a = some row → row t = some v →
      (v = 0 ∨ v = 1 / 2 ∨ v = 1 ∨ v = 2)) ∧
    (∀ a ∈ typesList, ∀ d, fetch a = some d → ∀ row, chart a = some row →
      ∀ t ∈ typesList, t ∉ d.double → t ∉ d.half → t ∉ d.zero → row t = some 1) := by
  subst hchart
  unfold build_type_chart
  refine ⟨?_, ?_, ?_, ?_⟩
  · intro t ht
    obtain ⟨d, hd, hdn⟩ := Option.map_eq_some'.mp (hnames t ht)
    obtain ⟨row, hrow, -⟩ := foldl_chart_char typesList fetch typesList _ hnames t ht d hd
    exact ⟨row, hrow⟩
  · intro a ha row hrow t ht
    obtain ⟨d, hd, hdn⟩ := Option.map_eq_some'.mp (hnames a ha)
    obtain ⟨row', hrow', hchar⟩ := foldl_chart_char typesList fetch typesList _ hnames a ha d hd
    rw [hrow] at hrow'
    injection hrow' with hre
    exact ⟨relVal d t, by rw [hre]; exact hchar t ht⟩
  · intro a row t v hrow hv
    have hOk := foldl_chartOk typesList fetch typesList (fun _ => none)
      (fun a r h => by cases h)
    exact hOk a row hrow t v hv
  · intro a ha d hd row hrow t ht h1 h2 h3
    obtain ⟨row', hrow', hchar⟩ := foldl_chart_char typesList fetch typesList _ hnames a ha d hd
    rw [hrow] at hrow'
    injection hrow' with hre
    have hc := hchar t ht
    rw [relVal, if_neg h3, if_neg h2, if_neg h1] at hc
    rw [hre]
    exact hc

/-- Upstream type listing fixture. -/
def typesFix : List String := ["fire", "water", "grass"]

/-- Upstream per-type relation fixture. -/
def fetchFix : String → Option TypeData :=
  fun t =>
    if t = "fire" then some { name := "fire", double := ["grass"], half := ["water", "fire"], zero := [] }
    else if t = "water" then some { name := "water", double := ["fire"], half := ["water", "grass"], zero := [] }
    else if t = "grass" then some { name := "grass", double := ["water"], half := ["fire", "grass"], zero := [] }
    else none

/-- C8 (witness): the three-type fixture chart satisfies all four invariants. -/
theorem claim_c8_witness :
    (∀ t ∈ typesFix, Option.map TypeData.name (fetchFix t) = some t) ∧
    ((∀ t ∈ typesFix, ∃ row, build_type_chart typesFix fetchFix t = some row) ∧
     (∀ a ∈ typesFix, ∀ row, build_type_chart typesFix fetchFix a = some row →
        ∀ t ∈ typesFix, ∃ v, row t = some v) ∧
     (∀ a row t v, build_type_chart typesFix fetchFix a = some row → row t = some v →
        (v = 0 ∨ v = 1 / 2 ∨ v = 1 ∨ v = 2)) ∧
     (∀ a ∈ typesFix, ∀ d, fetchFix a = some d → ∀ row,
        build_type_chart typesFix fetchFix a = some row →
        ∀ t ∈ typesFix, t ∉ d.double → t ∉ d.half → t ∉ d.zero → row t = some 1)) :=
  ⟨by decide, claim_c8 typesFix fetchFix (build_type_chart typesFix fetchFix) (by decide) rfl⟩

end PokemonMCP
